import Mathlib

/-!
Verification development for the cloud-carbon repository.

The Go sources are shallowly embedded as follows.

* float64 values are idealised as rational numbers (`ℚ`): every constant
  appearing in the reference tables and in the claims is decimal, and all
  concrete results asserted by the package tests are exact in decimal
  arithmetic, so the rational model agrees with the float64 computation on
  every value the claims mention.
* `time.Time` is embedded as an integer count of seconds since the Go zero
  time (January 1 of year 1, 00:00:00 UTC, proleptic Gregorian calendar);
  `time.Duration` is an integer count of nanoseconds.  `Time.Sub` saturates
  at the int64 bounds, exactly as documented for the Go standard library.
  Accumulated duration sums are kept in unbounded `ℤ` (int64 wraparound
  would need several centuries of usage and is outside every claim).
* the two reference tables (embedded CSV assets, not part of the sources)
  enter as explicit association-list parameters; the concrete table entries
  used below are the ones asserted by the package tests in the repository.
* fallible Go functions returning `(T, error)` become `Except String T`,
  with the exact error message strings of the source.
-/

namespace CloudCarbon

/-! ## Time model (Go standard library behaviour used by the sources) -/

/-- Nanoseconds in one hour, the value of `time.Hour`. -/
def nsPerHour : ℤ := 3600000000000

/-- Smallest value of the int64-backed `time.Duration`. -/
def minDuration : ℤ := -9223372036854775808

/-- Largest value of the int64-backed `time.Duration`. -/
def maxDuration : ℤ := 9223372036854775807

/-- Difference `t - u` of two times (in seconds), returned in nanoseconds and
saturated at the int64 bounds, as `time.Time.Sub` documents. -/
def timeSub (t u : ℤ) : ℤ :=
  let d := (t - u) * 1000000000
  if d < minDuration then minDuration
  else if maxDuration < d then maxDuration
  else d

/-- Fractional hours of a duration, the computation of `time.Duration.Hours`:
whole hours via truncated int64 division plus the remainder scaled down.  In
exact arithmetic this equals `d / nsPerHour`. -/
def durationHours (d : ℤ) : ℚ :=
  ((Int.tdiv d nsPerHour : ℤ) : ℚ) + ((Int.tmod d nsPerHour : ℤ) : ℚ) / (nsPerHour : ℚ)

/-- Leap-year test of the Go `time` package. -/
def isLeap (y : ℕ) : Bool :=
  y % 4 == 0 && (y % 100 != 0 || y % 400 == 0)

/-- Length of a month, as `time.daysIn`.  Months outside 1..12 are rejected
before this function is consulted. -/
def daysInMonth (y m : ℕ) : ℕ :=
  if m == 2 then (if isLeap y then 29 else 28)
  else if m == 4 || m == 6 || m == 9 || m == 11 then 30
  else 31

/-- Days in the calendar years strictly before year `y` (proleptic Gregorian,
counting from year 1 like the Go time package). -/
def daysBeforeYear (y : ℕ) : ℕ :=
  (y - 1) * 365 + (y - 1) / 4 + (y - 1) / 400 - (y - 1) / 100

/-- Days of year `y` that lie strictly before month `m`. -/
def daysBeforeMonth (y m : ℕ) : ℕ :=
  ((List.range (m - 1)).map (fun i => daysInMonth y (i + 1))).sum

/-- Seconds since the Go zero time of a given UTC datetime. -/
def dateToSeconds (y m d h mi s : ℕ) : ℤ :=
  (((daysBeforeYear y + daysBeforeMonth y m + (d - 1)) * 86400 + h * 3600 + mi * 60 + s : ℕ) : ℤ)

/-- Numeric value of a decimal digit character. -/
def digitVal (c : Char) : ℕ := c.toNat - 48

/-- Parsing with the fixed layout `"2006-01-02T15:04:05Z"` used by the
sources (`dateTimeLayout`): exactly 20 characters, zero-padded two-digit
fields, literal separators, with the range checks `time.Parse` performs
(month 1..12, day 1..daysIn, hour 0..23, minute and second 0..59).
Returns `none` exactly when `time.Parse` returns an error. -/
def parseDate (str : String) : Option ℤ :=
  match str.data with
  | [y1, y2, y3, y4, s1, mo1, mo2, s2, d1, d2, t1, h1, h2, c1, mi1, mi2, c2, se1, se2, z1] =>
    if y1.isDigit && y2.isDigit && y3.isDigit && y4.isDigit &&
       mo1.isDigit && mo2.isDigit && d1.isDigit && d2.isDigit &&
       h1.isDigit && h2.isDigit && mi1.isDigit && mi2.isDigit &&
       se1.isDigit && se2.isDigit &&
       s1 == '-' && s2 == '-' && t1 == 'T' && c1 == ':' && c2 == ':' && z1 == 'Z' then
      let y := digitVal y1 * 1000 + digitVal y2 * 100 + digitVal y3 * 10 + digitVal y4
      let mo := digitVal mo1 * 10 + digitVal mo2
      let d := digitVal d1 * 10 + digitVal d2
      let h := digitVal h1 * 10 + digitVal h2
      let mi := digitVal mi1 * 10 + digitVal mi2
      let se := digitVal se1 * 10 + digitVal se2
      if 1 ≤ mo && mo ≤ 12 && 1 ≤ d && d ≤ daysInMonth y mo &&
         h ≤ 23 && mi ≤ 59 && se ≤ 59 then
        some (dateToSeconds y mo d h mi se)
      else none
    else none
  | _ => none

/-- Embedding of `mustParseDate` (cmd/analyse.go): the parse error is
discarded and a failed parse yields the zero time. -/
def mustParseDate (s : String) : ℤ :=
  (parseDate s).getD 0

/-! ## Package footprint -/

/-- Embedding of the `EC2Instance` record of pkg/footprint/footprint.go. -/
structure EC2Instance where
  PowerAt50Percent : ℚ
  ManufacturingEmissionsHourly : ℚ
deriving DecidableEq

/-- Embedding of the `AWSRegion` record of pkg/footprint/footprint.go. -/
structure AWSRegion where
  CarbonIntensity : ℚ
  PUE : ℚ
deriving DecidableEq

/-- Lookup in a Go map modelled as an association list. -/
def assocFind {α : Type} (k : String) : List (String × α) → Option α
  | [] => none
  | (k', v) :: rest => if k' = k then some v else assocFind k rest

/-- Embedding of `footprint.PowerAt50Percent`.  The instance table, loaded
from an embedded asset in the source, is an explicit parameter here. -/
def PowerAt50Percent (ec2instances : List (String × EC2Instance)) (ec2InstanceType : String) :
    Except String ℚ :=
  match assocFind ec2InstanceType ec2instances with
  | none => .error "unknown instance type"
  | some val => .ok val.PowerAt50Percent

/-- Embedding of `footprint.ManufacturingEmissions`. -/
def ManufacturingEmissions (ec2instances : List (String × EC2Instance)) (ec2InstanceType : String) :
    Except String ℚ :=
  match assocFind ec2InstanceType ec2instances with
  | none => .error "unknown instance type"
  | some val => .ok val.ManufacturingEmissionsHourly

/-- Embedding of `footprint.CarbonIntensity`. -/
def CarbonIntensity (awsRegions : List (String × AWSRegion)) (regionCode : String) :
    Except String ℚ :=
  match assocFind regionCode awsRegions with
  | none => .error "unknown AWS region code"
  | some val => .ok val.CarbonIntensity

/-- Embedding of `footprint.PUE`. -/
def PUE (awsRegions : List (String × AWSRegion)) (regionCode : String) :
    Except String ℚ :=
  match assocFind regionCode awsRegions with
  | none => .error "unknown AWS region code"
  | some val => .ok val.PUE

/-- Embedding of `footprint.AWS`: the four lookups in source order followed by
the emissions formula. -/
def AWS (awsRegions : List (String × AWSRegion)) (ec2instances : List (String × EC2Instance))
    (regionCode instanceType : String) (duration : ℤ) : Except String ℚ := do
  let pue ← PUE awsRegions regionCode
  let ci ← CarbonIntensity awsRegions regionCode
  let power ← PowerAt50Percent ec2instances instanceType
  let manufacturing ← ManufacturingEmissions ec2instances instanceType
  let powerKiloWatt := power / 1000
  let hours := durationHours duration
  return ((powerKiloWatt * pue * ci) + manufacturing) * hours

/-- Instance-table entries asserted by the package tests of the repository
(the embedded CSV asset itself is not among the sources). -/
def testEC2Instances : List (String × EC2Instance) :=
  [("m5d.16xlarge", ⟨451.9, 38.8⟩),
   ("t2.micro", ⟨4.9, 0.9⟩),
   ("a1.medium", ⟨3.2, 1.8⟩),
   ("c3.8xlarge", ⟨191.1, 31.5⟩),
   ("m5.2xlarge", ⟨56.5, 3.9⟩)]

/-- Region-table entries asserted by the package tests of the repository. -/
def testAWSRegions : List (String × AWSRegion) :=
  [("eu-central-1", ⟨338, 1.2⟩),
   ("eu-west-1", ⟨316, 1.2⟩),
   ("us-east-1", ⟨415.755, 1.2⟩),
   ("ap-southeast-2", ⟨790, 1.2⟩)]

/-- Truncated division agrees with exact division once both terms of
`durationHours` are combined. -/
theorem durationHours_eq (d : ℤ) : durationHours d = (d : ℚ) / 3600000000000 := by
  have h := Int.tdiv_add_tmod d nsPerHour
  have h2 : ((nsPerHour * Int.tdiv d nsPerHour + Int.tmod d nsPerHour : ℤ) : ℚ) = (d : ℚ) := by
    exact_mod_cast congrArg (fun z : ℤ => (z : ℚ)) h
  push_cast at h2
  have hns : ((nsPerHour : ℤ) : ℚ) = 3600000000000 := by norm_num [nsPerHour]
  rw [hns] at h2
  have hK : (3600000000000 : ℚ) ≠ 0 := by norm_num
  rw [durationHours, hns, eq_div_iff hK, add_mul, div_mul_cancel₀ _ hK]
  linarith [h2]

/-! ## The analyse command (cmd/analyse.go)

A usage-report row after the header is embedded as the record of the fields
the code reads, the header-name-to-index plumbing being resolved by field
name.  The stream handed to the read loop is the sequence of results of
`csv.Read`: a well-formed row or a structural CSV error. -/

/-- Fields of one usage-report row that cmd/analyse.go reads. -/
structure CsvRow where
  lineItemType : String
  productCode : String
  productFamily : String
  operation : String
  payerAccountID : String
  usageAccountID : String
  region : String
  instanceType : String
  timeInterval : String
deriving DecidableEq

/-- Embedding of the `ReportRow` record. -/
structure ReportRow where
  PayerAccountID : String
  UsageAccountID : String
  Region : String
  InstanceType : String
  UsageStartTime : ℤ
  UsageEndTime : ℤ
  Duration : ℤ
deriving DecidableEq

/-- Embedding of the `AggregateReportRow` record. -/
structure AggregateReportRow where
  Region : String
  InstanceType : String
  Duration : ℤ
  EmissionGrams : ℚ
deriving DecidableEq

/-- Segment of the interval string before the first slash, the element 0 of
`strings.Split(interval, "/")`. -/
def intervalPart0 (s : String) : String :=
  String.mk (s.data.takeWhile (fun c => c ≠ '/'))

/-- Segment of the interval string between the first and second slash, the
element 1 of `strings.Split(interval, "/")`.  When the interval holds no
slash the Go code would panic on the missing element; this total model
returns the empty string there, a case outside all claims. -/
def intervalPart1 (s : String) : String :=
  match s.data.dropWhile (fun c => c ≠ '/') with
  | [] => ""
  | _ :: tail => String.mk (tail.takeWhile (fun c => c ≠ '/'))

/-- Embedding of `readReportRow`: the standalone start and end fields are
overwritten by the two halves of the interval field (source lines 83-88), so
only the interval-derived values remain observable. -/
def readReportRow (row : CsvRow) : ReportRow :=
  let start := mustParseDate (intervalPart0 row.timeInterval)
  let stop := mustParseDate (intervalPart1 row.timeInterval)
  { PayerAccountID := row.payerAccountID
    UsageAccountID := row.usageAccountID
    Region := row.region
    InstanceType := row.instanceType
    UsageStartTime := start
    UsageEndTime := stop
    Duration := timeSub stop start }

/-- Aggregation key of a report row, the `fmt.Sprintf("%s_%s", ...)` of the
source. -/
def rowKey (r : ReportRow) : String := r.Region ++ "_" ++ r.InstanceType

/-- Map update of the aggregation loop: add the duration to an existing
bucket, or create the bucket with the fields of this record. -/
def insertAgg : List (String × AggregateReportRow) → String → ReportRow →
    List (String × AggregateReportRow)
  | [], k, r => [(k, ⟨r.Region, r.InstanceType, r.Duration, 0⟩)]
  | (k', v) :: rest, k, r =>
    if k' = k then (k', { v with Duration := v.Duration + r.Duration }) :: rest
    else (k', v) :: insertAgg rest k r

/-- Mutable state of the read loop of `analyse`. -/
structure AnalyseState where
  lineCount : ℕ
  aggregate : List (String × AggregateReportRow)
  earliest : ℤ
  latest : ℤ
deriving DecidableEq

/-- Body of the read loop for one row: the four filter checks with early
exit, then extraction, aggregation and time-range tracking. -/
def processRow (st : AnalyseState) (row : CsvRow) : AnalyseState :=
  if row.lineItemType ≠ "Usage" then st
  else if row.productCode ≠ "AmazonEC2" then st
  else if row.productFamily ≠ "Compute Instance" then st
  else if ¬ ("RunInstances".data.isPrefixOf row.operation.data) then st
  else
    let r := readReportRow row
    { lineCount := st.lineCount + 1
      aggregate := insertAgg st.aggregate (rowKey r) r
      earliest := if r.UsageStartTime < st.earliest then r.UsageStartTime else st.earliest
      latest := if st.latest < r.UsageEndTime then r.UsageEndTime else st.latest }

/-- Qualification of a row, the conjunction of the four filter checks. -/
def qualifies (row : CsvRow) : Bool :=
  row.lineItemType == "Usage" && row.productCode == "AmazonEC2" &&
  row.productFamily == "Compute Instance" &&
  "RunInstances".data.isPrefixOf row.operation.data

/-- Initial loop state: zero counters and the two sentinel dates of the
source (the second sentinel string fails to parse). -/
def initState : AnalyseState :=
  { lineCount := 0
    aggregate := []
    earliest := mustParseDate "2100-12-31T23:59:59Z"
    latest := mustParseDate "0000-00-00T00:00:00Z" }

/-- Read loop over the stream of `csv.Read` results: the loop ends at EOF
(end of the stream) and also, after printing the message, at the first
structural CSV error; in both cases the accumulated state is handed on to
the reporting code that follows the loop. -/
def readLoop (st : AnalyseState) : List (Except String CsvRow) → AnalyseState
  | [] => st
  | .error _ :: _ => st
  | .ok row :: rest => readLoop (processRow st row) rest

/-- Aggregation over a list of well-formed rows. -/
def runRows (st : AnalyseState) (rows : List CsvRow) : AnalyseState :=
  rows.foldl processRow st

/-- Reporting phase: one output record per bucket for which the emissions
estimate succeeds; buckets with a failing lookup are logged and skipped. -/
def finalRecords (awsRegions : List (String × AWSRegion))
    (ec2instances : List (String × EC2Instance))
    (agg : List (String × AggregateReportRow)) : List AggregateReportRow :=
  agg.filterMap (fun e =>
    match AWS awsRegions ec2instances e.2.Region e.2.InstanceType e.2.Duration with
    | .ok result => some ⟨e.2.Region, e.2.InstanceType, e.2.Duration, result⟩
    | .error _ => none)

/-- Grand total of the reporting phase: sum of the successful estimates. -/
def totalEmissions (awsRegions : List (String × AWSRegion))
    (ec2instances : List (String × EC2Instance))
    (agg : List (String × AggregateReportRow)) : ℚ :=
  (agg.filterMap (fun e =>
    (AWS awsRegions ec2instances e.2.Region e.2.InstanceType e.2.Duration).toOption)).sum

/-- Duration stored for a key, zero when the bucket does not exist. -/
def durAt (agg : List (String × AggregateReportRow)) (k : String) : ℤ :=
  ((assocFind k agg).map (fun v => v.Duration)).getD 0

/-! ## Formatting (formatGrams) -/

/-- Rounding to the nearest integer with ties to even, the rounding rule of
the `fmt` package for the `f` verb. -/
def roundNearEven (q : ℚ) : ℤ :=
  let f := ⌊q⌋
  if q - f < 1 / 2 then f
  else if 1 / 2 < q - f then f + 1
  else if f % 2 = 0 then f else f + 1

/-- Decimal rendering with zero decimals, the verb `%.0f` on the values the
program prints (the sign branch mirrors negative values; a float negative
zero has no counterpart in this exact model). -/
def fmtDec0 (q : ℚ) : String :=
  let n := roundNearEven q
  if n < 0 then "-" ++ toString (-n).toNat else toString n.toNat

/-- Decimal rendering with one decimal for a nonnegative scaled integer. -/
def fmtDec1Core (m : ℕ) : String :=
  toString (m / 10) ++ "." ++ toString (m % 10)

/-- Decimal rendering with one decimal, the verb `%.1f`. -/
def fmtDec1 (q : ℚ) : String :=
  let n := roundNearEven (q * 10)
  if n < 0 then "-" ++ fmtDec1Core (-n).toNat else fmtDec1Core n.toNat

/-- Embedding of `formatGrams`: metric tons above one million grams,
kilograms above one thousand grams, grams otherwise, both thresholds
strict. -/
def formatGrams (g : ℚ) : String :=
  if g > 1000 * 1000 then fmtDec1 (g / 1000 / 1000) ++ " MTCO2e"
  else if g > 1000 then fmtDec1 (g / 1000) ++ " kgCO2e"
  else fmtDec0 g ++ " gCO2e"

/-! ## Lemmas about the aggregation loop -/

/-- Aggregation key of a csv row, before extraction. -/
def csvKey (row : CsvRow) : String := row.region ++ "_" ++ row.instanceType

/-- Keys of the buckets, in insertion order. -/
def aggKeys (agg : List (String × AggregateReportRow)) : List String :=
  agg.map Prod.fst

/-- Distinctness of the bucket keys, the map invariant. -/
def NodupKeys (agg : List (String × AggregateReportRow)) : Prop :=
  (aggKeys agg).Nodup

/-- Qualifying rows of the stream whose aggregation key is `k`. -/
def keyRows (rows : List CsvRow) (k : String) : List CsvRow :=
  rows.filter (fun row => qualifies row && (csvKey row == k))

/-- Total duration of the qualifying rows with aggregation key `k`. -/
def keySum (rows : List CsvRow) (k : String) : ℤ :=
  ((keyRows rows k).map (fun row => (readReportRow row).Duration)).sum

theorem rowKey_readReportRow (row : CsvRow) : rowKey (readReportRow row) = csvKey row := rfl

theorem processRow_of_not_qualifies (st : AnalyseState) (row : CsvRow)
    (h : qualifies row = false) : processRow st row = st := by
  by_cases c1 : row.lineItemType = "Usage"
  · by_cases c2 : row.productCode = "AmazonEC2"
    · by_cases c3 : row.productFamily = "Compute Instance"
      · by_cases c4 : ("RunInstances".data.isPrefixOf row.operation.data) = true
        · exfalso
          simp [qualifies, c1, c2, c3, c4] at h
        · simp [processRow, c1, c2, c3, c4]
      · simp [processRow, c1, c2, c3]
    · simp [processRow, c1, c2]
  · simp [processRow, c1]

theorem processRow_of_qualifies (st : AnalyseState) (row : CsvRow)
    (h : qualifies row = true) :
    processRow st row =
      { lineCount := st.lineCount + 1
        aggregate := insertAgg st.aggregate (csvKey row) (readReportRow row)
        earliest := if (readReportRow row).UsageStartTime < st.earliest then
          (readReportRow row).UsageStartTime else st.earliest
        latest := if st.latest < (readReportRow row).UsageEndTime then
          (readReportRow row).UsageEndTime else st.latest } := by
  simp only [qualifies, Bool.and_eq_true, beq_iff_eq] at h
  obtain ⟨⟨⟨e1, e2⟩, e3⟩, e4⟩ := h
  simp only [processRow, e1, e2, e3, e4, ne_eq, not_true_eq_false, if_false,
    Bool.true_eq_false, rowKey_readReportRow]

theorem assocFind_insertAgg_self (agg : List (String × AggregateReportRow)) (k : String)
    (r : ReportRow) :
    assocFind k (insertAgg agg k r) = some (match assocFind k agg with
      | none => ⟨r.Region, r.InstanceType, r.Duration, 0⟩
      | some v => { v with Duration := v.Duration + r.Duration }) := by
  induction agg with
  | nil => simp [insertAgg, assocFind]
  | cons e rest ih =>
    obtain ⟨k', v⟩ := e
    by_cases hk : k' = k
    · simp [insertAgg, assocFind, hk]
    · simp [insertAgg, assocFind, hk, ih]

theorem assocFind_insertAgg_ne (agg : List (String × AggregateReportRow)) (k : String)
    (r : ReportRow) (k' : String) (h : k' ≠ k) :
    assocFind k' (insertAgg agg k r) = assocFind k' agg := by
  have h2 : ¬ (k = k') := fun hc => h hc.symm
  induction agg with
  | nil => simp [insertAgg, assocFind, h2]
  | cons e rest ih =>
    obtain ⟨k'', v⟩ := e
    by_cases hk : k'' = k
    · subst hk
      simp [insertAgg, assocFind, h2]
    · by_cases hk' : k'' = k'
      · simp [insertAgg, assocFind, hk, hk', h]
      · simp [insertAgg, assocFind, hk, hk', ih]

theorem aggKeys_insertAgg (agg : List (String × AggregateReportRow)) (k : String)
    (r : ReportRow) :
    aggKeys (insertAgg agg k r) =
      if (assocFind k agg).isSome then aggKeys agg else aggKeys agg ++ [k] := by
  induction agg with
  | nil => simp [insertAgg, assocFind, aggKeys]
  | cons e rest ih =>
    obtain ⟨k', v⟩ := e
    by_cases hk : k' = k
    · simp [insertAgg, assocFind, aggKeys, hk]
    · simp only [insertAgg, assocFind, aggKeys, hk, if_false, List.map_cons]
      simp only [aggKeys] at ih
      rw [ih]
      by_cases hs : (assocFind k rest).isSome <;> simp [hs]

theorem assocFind_eq_none_iff (agg : List (String × AggregateReportRow)) (k : String) :
    assocFind k agg = none ↔ k ∉ aggKeys agg := by
  induction agg with
  | nil => simp [assocFind, aggKeys]
  | cons e rest ih =>
    obtain ⟨k', v⟩ := e
    by_cases hk : k' = k
    · simp [assocFind, aggKeys, hk]
    · have hk2 : ¬ (k = k') := fun hc => hk hc.symm
      simp [assocFind, aggKeys, hk, hk2, ih]

theorem nodupKeys_insertAgg (agg : List (String × AggregateReportRow)) (k : String)
    (r : ReportRow) (h : NodupKeys agg) : NodupKeys (insertAgg agg k r) := by
  unfold NodupKeys
  rw [aggKeys_insertAgg]
  by_cases hs : (assocFind k agg).isSome
  · simpa [hs] using h
  · have hnone : assocFind k agg = none := by
      cases hfind : assocFind k agg with
      | none => rfl
      | some v => rw [hfind] at hs; simp at hs
    have hmem : k ∉ aggKeys agg := (assocFind_eq_none_iff agg k).mp hnone
    simp only [hs, if_false]
    simpa [List.nodup_append] using ⟨h, hmem⟩

/-- Bucket contents after the loop, characterised key by key: an existing
bucket is increased by the total duration of the matching qualifying rows,
and a fresh bucket carries the labels of the first matching qualifying row
together with that total. -/
theorem assocFind_runRows (rows : List CsvRow) (st : AnalyseState) (k : String) :
    assocFind k (runRows st rows).aggregate =
      match assocFind k st.aggregate with
      | some v => some { v with Duration := v.Duration + keySum rows k }
      | none =>
        match keyRows rows k with
        | [] => none
        | row :: _ => some ⟨row.region, row.instanceType, keySum rows k, 0⟩ := by
  induction rows generalizing st with
  | nil =>
    simp only [runRows, List.foldl_nil, keyRows, keySum, List.filter_nil, List.map_nil,
      List.sum_nil]
    cases hfind : assocFind k st.aggregate <;> simp
  | cons row rest ih =>
    have hstep : runRows st (row :: rest) = runRows (processRow st row) rest := by
      simp [runRows]
    rw [hstep]
    by_cases hq : qualifies row = true
    · by_cases hk : csvKey row = k
      · have hfilter : keyRows (row :: rest) k = row :: keyRows rest k := by
          simp [keyRows, List.filter_cons, hq, hk]
        have hsum : keySum (row :: rest) k = (readReportRow row).Duration + keySum rest k := by
          simp [keySum, hfilter]
        have hagg : (processRow st row).aggregate =
            insertAgg st.aggregate k (readReportRow row) := by
          rw [processRow_of_qualifies st row hq, hk]
        rw [ih (processRow st row), hagg, assocFind_insertAgg_self]
        cases hfind : assocFind k st.aggregate with
        | some v => simp [hfind, hsum, add_assoc]
        | none => simp [hfind, hfilter, hsum, readReportRow]
      · have hfilter : keyRows (row :: rest) k = keyRows rest k := by
          simp [keyRows, List.filter_cons, hq, hk]
        have hsum : keySum (row :: rest) k = keySum rest k := by
          simp [keySum, hfilter]
        have hagg : assocFind k (processRow st row).aggregate = assocFind k st.aggregate := by
          rw [processRow_of_qualifies st row hq]
          exact assocFind_insertAgg_ne _ _ _ _ (fun hc => hk hc.symm)
        rw [ih (processRow st row), hagg, hfilter, hsum]
    · have hq' : qualifies row = false := by simpa using hq
      have hfilter : keyRows (row :: rest) k = keyRows rest k := by
        simp [keyRows, List.filter_cons, hq']
      have hsum : keySum (row :: rest) k = keySum rest k := by
        simp [keySum, hfilter]
      rw [processRow_of_not_qualifies st row hq', ih st, hfilter, hsum]

/-- The loop preserves distinctness of the bucket keys. -/
theorem nodupKeys_runRows (rows : List CsvRow) (st : AnalyseState)
    (h : NodupKeys st.aggregate) : NodupKeys (runRows st rows).aggregate := by
  induction rows generalizing st with
  | nil => simpa [runRows] using h
  | cons row rest ih =>
    have hstep : runRows st (row :: rest) = runRows (processRow st row) rest := by
      simp [runRows]
    rw [hstep]
    by_cases hq : qualifies row = true
    · refine ih (processRow st row) ?_
      rw [processRow_of_qualifies st row hq]
      exact nodupKeys_insertAgg _ _ _ h
    · have hq' : qualifies row = false := by simpa using hq
      rw [processRow_of_not_qualifies st row hq']
      exact ih st h

/-- Placeholder bucket used only to state the reconstruction lemma below. -/
def defaultAgg : AggregateReportRow := ⟨"", "", 0, 0⟩

/-- Association list with distinct keys, reconstructed from its key list and
its lookup function. -/
theorem agg_eq_map_keys (agg : List (String × AggregateReportRow)) (h : NodupKeys agg) :
    agg = (aggKeys agg).map (fun k => (k, (assocFind k agg).getD defaultAgg)) := by
  induction agg with
  | nil => rfl
  | cons e rest ih =>
    obtain ⟨k, v⟩ := e
    have hcons : (k :: aggKeys rest).Nodup := by simpa [NodupKeys, aggKeys] using h
    have hknot : k ∉ aggKeys rest := (List.nodup_cons.mp hcons).1
    have hrest : NodupKeys rest := (List.nodup_cons.mp hcons).2
    have htail : ∀ k' ∈ aggKeys rest,
        (k', (assocFind k' ((k, v) :: rest)).getD defaultAgg)
          = (k', (assocFind k' rest).getD defaultAgg) := by
      intro k' hk'
      have hne : ¬ (k = k') := fun hc => hknot (hc ▸ hk')
      simp [assocFind, hne]
    have step1 : (aggKeys ((k, v) :: rest)).map
          (fun k' => (k', (assocFind k' ((k, v) :: rest)).getD defaultAgg))
        = (k, v) :: (aggKeys rest).map
          (fun k' => (k', (assocFind k' ((k, v) :: rest)).getD defaultAgg)) := by
      simp [aggKeys, assocFind]
    have step2 : (aggKeys rest).map
          (fun k' => (k', (assocFind k' ((k, v) :: rest)).getD defaultAgg))
        = (aggKeys rest).map (fun k' => (k', (assocFind k' rest).getD defaultAgg)) :=
      List.map_congr_left htail
    rw [step1, step2, ← ih hrest]

/-- Two bucket lists with distinct keys and the same lookup function hold the
same buckets, up to order. -/
theorem agg_perm_of_assocFind_eq (agg1 agg2 : List (String × AggregateReportRow))
    (h1 : NodupKeys agg1) (h2 : NodupKeys agg2)
    (h : ∀ k, assocFind k agg1 = assocFind k agg2) : agg1.Perm agg2 := by
  have hmem : ∀ k, k ∈ aggKeys agg1 ↔ k ∈ aggKeys agg2 := by
    intro k
    rw [← not_iff_not, ← assocFind_eq_none_iff, ← assocFind_eq_none_iff, h k]
  have hkeys : (aggKeys agg1).Perm (aggKeys agg2) := by
    refine List.perm_of_nodup_nodup_toFinset_eq h1 h2 ?_
    ext k
    simp [List.mem_toFinset, hmem k]
  have e1 : agg1 = (aggKeys agg1).map (fun k => (k, (assocFind k agg1).getD defaultAgg)) :=
    agg_eq_map_keys agg1 h1
  have e2 : (aggKeys agg1).map (fun k => (k, (assocFind k agg1).getD defaultAgg))
      = (aggKeys agg1).map (fun k => (k, (assocFind k agg2).getD defaultAgg)) := by
    refine List.map_congr_left ?_
    intro k _
    rw [h k]
  have e3 : agg2 = (aggKeys agg2).map (fun k => (k, (assocFind k agg2).getD defaultAgg)) :=
    agg_eq_map_keys agg2 h2
  have hfinal : agg1.Perm
      ((aggKeys agg2).map (fun k => (k, (assocFind k agg2).getD defaultAgg))) := by
    rw [e1, e2]
    exact hkeys.map _
  rw [← e3] at hfinal
  exact hfinal

/-- Consistency of the aggregation keys: qualifying rows with the same
underscore-joined key agree on region and instance type.  This holds for
every realistic report, where region codes hold no underscore, and is
exactly the hypothesis under which the string key identifies the pair. -/
def KeyConsistent (rows : List CsvRow) : Prop :=
  ∀ r1 ∈ rows, ∀ r2 ∈ rows, qualifies r1 = true → qualifies r2 = true →
    csvKey r1 = csvKey r2 → r1.region = r2.region ∧ r1.instanceType = r2.instanceType

theorem keySum_perm {rows1 rows2 : List CsvRow} (h : rows1.Perm rows2) (k : String) :
    keySum rows1 k = keySum rows2 k :=
  ((h.filter _).map _).sum_eq

/-- Under key consistency the bucket lookups after the loop are invariant
under permutation of the input rows. -/
theorem assocFind_runRows_perm {rows1 rows2 : List CsvRow} (h : rows1.Perm rows2)
    (hc : KeyConsistent rows1) (k : String) :
    assocFind k (runRows initState rows1).aggregate
      = assocFind k (runRows initState rows2).aggregate := by
  rw [assocFind_runRows, assocFind_runRows]
  have hinit : assocFind k initState.aggregate = none := rfl
  rw [hinit]
  have hperm : (keyRows rows1 k).Perm (keyRows rows2 k) := h.filter _
  cases h1 : keyRows rows1 k with
  | nil =>
    have h2 : keyRows rows2 k = [] := by
      rw [h1] at hperm
      exact hperm.symm.eq_nil
    rw [h2]
  | cons a tail1 =>
    cases h2 : keyRows rows2 k with
    | nil =>
      rw [h1, h2] at hperm
      exact absurd hperm.eq_nil (by simp)
    | cons b tail2 =>
      have hamem : a ∈ keyRows rows1 k := by rw [h1]; exact List.mem_cons_self a tail1
      have hbmem : b ∈ keyRows rows1 k := hperm.symm.subset (by rw [h2]; exact List.mem_cons_self b tail2)
      have ha := List.mem_filter.mp hamem
      have hb := List.mem_filter.mp hbmem
      have haq : qualifies a = true := by
        have := ha.2
        simp only [Bool.and_eq_true] at this
        exact this.1
      have hbq : qualifies b = true := by
        have := hb.2
        simp only [Bool.and_eq_true] at this
        exact this.1
      have hak : csvKey a = k := by
        have := ha.2
        simp only [Bool.and_eq_true, beq_iff_eq] at this
        exact this.2
      have hbk : csvKey b = k := by
        have := hb.2
        simp only [Bool.and_eq_true, beq_iff_eq] at this
        exact this.2
      have hlab := hc a ha.1 b hb.1 haq hbq (hak.trans hbk.symm)
      rw [keySum_perm h k]
      simp [hlab.1, hlab.2]

/-! ## Sorting of the output records

The source sorts the record slice twice with `sort.Slice`, first by instance
type and then by region, each pass with a strict string comparison as the
less function.  `sort.Slice` guarantees only that the result is a
permutation ordered by the less function; it is documented as not stable.
`sortPassResult` is that contract, and `twoPassResult` the composition of
the two passes.  `isortKey` is a stable sorting pass, used to state what the
two passes yield when both are stable. -/

/-- Outcome of one `sort.Slice` call with the less function comparing the
projections under `key`: a permutation of the input, ordered by `key`. -/
def sortPassResult (key : AggregateReportRow → String)
    (inp out : List AggregateReportRow) : Prop :=
  inp.Perm out ∧ out.Pairwise (fun a b => key a ≤ key b)

/-- Outcome of the successive instance-type and region passes. -/
def twoPassResult (inp out : List AggregateReportRow) : Prop :=
  ∃ mid, sortPassResult (fun rec => rec.InstanceType) inp mid ∧
    sortPassResult (fun rec => rec.Region) mid out

/-- Two-key ordering asserted for the final table: regions ascending, and
instance types ascending inside a region. -/
def lexOK (a b : AggregateReportRow) : Prop :=
  a.Region < b.Region ∨ (a.Region = b.Region ∧ a.InstanceType ≤ b.InstanceType)

/-- Stable insertion of an element into a pass output: the element goes in
front of the first position that is not strictly below it. -/
def insertKey (key : AggregateReportRow → String) (x : AggregateReportRow) :
    List AggregateReportRow → List AggregateReportRow
  | [] => [x]
  | y :: ys => if key y < key x then y :: insertKey key x ys else x :: y :: ys

/-- Stable insertion sort by a key projection. -/
def isortKey (key : AggregateReportRow → String) :
    List AggregateReportRow → List AggregateReportRow
  | [] => []
  | x :: xs => insertKey key x (isortKey key xs)

/-- Both passes carried out stably. -/
def stableTwoPass (l : List AggregateReportRow) : List AggregateReportRow :=
  isortKey (fun rec => rec.Region) (isortKey (fun rec => rec.InstanceType) l)

theorem insertKey_perm (key : AggregateReportRow → String) (x : AggregateReportRow)
    (l : List AggregateReportRow) : (insertKey key x l).Perm (x :: l) := by
  induction l with
  | nil => exact List.Perm.refl _
  | cons y ys ih =>
    by_cases h : key y < key x
    · simp only [insertKey, h, if_true]
      exact (ih.cons y).trans (List.Perm.swap x y ys)
    · simp only [insertKey, h, if_false]
      exact List.Perm.refl _

theorem isortKey_perm (key : AggregateReportRow → String) (l : List AggregateReportRow) :
    (isortKey key l).Perm l := by
  induction l with
  | nil => exact List.Perm.refl _
  | cons x xs ih =>
    exact (insertKey_perm key x (isortKey key xs)).trans (ih.cons x)

theorem mem_insertKey (key : AggregateReportRow → String) (x z : AggregateReportRow)
    (l : List AggregateReportRow) : z ∈ insertKey key x l ↔ z = x ∨ z ∈ l := by
  rw [(insertKey_perm key x l).mem_iff]
  simp

theorem insertKey_pairwise_le (key : AggregateReportRow → String) (x : AggregateReportRow)
    (l : List AggregateReportRow) (h : l.Pairwise (fun a b => key a ≤ key b)) :
    (insertKey key x l).Pairwise (fun a b => key a ≤ key b) := by
  induction l with
  | nil => simp [insertKey]
  | cons y ys ih =>
    rw [List.pairwise_cons] at h
    by_cases hlt : key y < key x
    · simp only [insertKey, hlt, if_true]

      rw [List.pairwise_cons]
      constructor
      · intro z hz
        rcases (mem_insertKey key x z ys).mp hz with hz | hz
        · exact hz ▸ le_of_lt hlt
        · exact h.1 z hz
      · exact ih h.2
    · simp only [insertKey, hlt, if_false]
      rw [List.pairwise_cons]
      refine ⟨?_, List.pairwise_cons.mpr h⟩
      intro z hz
      rcases List.mem_cons.mp hz with hz | hz
      · exact hz ▸ le_of_not_lt hlt
      · exact le_trans (le_of_not_lt hlt) (h.1 z hz)

theorem isortKey_pairwise_le (key : AggregateReportRow → String) (l : List AggregateReportRow) :
    (isortKey key l).Pairwise (fun a b => key a ≤ key b) := by
  induction l with
  | nil => simp [isortKey]
  | cons x xs ih => exact insertKey_pairwise_le key x _ ih

theorem lexOK_region_le (a b : AggregateReportRow) (h : lexOK a b) : a.Region ≤ b.Region := by
  rcases h with h | h
  · exact le_of_lt h
  · exact le_of_eq h.1

/-- Inserting by region keeps the two-key ordering, provided the inserted
element is below every element of the list in instance-type order — which is
what the preceding stable instance-type pass provides. -/
theorem insertKey_region_lex (x : AggregateReportRow) (l : List AggregateReportRow)
    (h : l.Pairwise lexOK) (hx : ∀ y ∈ l, x.InstanceType ≤ y.InstanceType) :
    (insertKey (fun rec => rec.Region) x l).Pairwise lexOK := by
  induction l with
  | nil => simp [insertKey]
  | cons y ys ih =>
    rw [List.pairwise_cons] at h
    by_cases hlt : y.Region < x.Region
    · simp only [insertKey, hlt, if_true]
      rw [List.pairwise_cons]
      constructor
      · intro z hz
        rcases (mem_insertKey _ x z ys).mp hz with hz | hz
        · exact hz ▸ Or.inl hlt
        · exact h.1 z hz
      · refine ih h.2 ?_
        intro z hz
        exact hx z (List.mem_cons_of_mem y hz)
    · simp only [insertKey, hlt, if_false]
      rw [List.pairwise_cons]
      refine ⟨?_, List.pairwise_cons.mpr h⟩
      intro z hz
      have hregion : x.Region ≤ z.Region := by
        rcases List.mem_cons.mp hz with hz | hz
        · exact hz ▸ le_of_not_lt hlt
        · exact le_trans (le_of_not_lt hlt) (lexOK_region_le y z (h.1 z hz))
      rcases lt_or_eq_of_le hregion with hr | hr
      · exact Or.inl hr
      · exact Or.inr ⟨hr, hx z hz⟩

/-- A stable region pass over an instance-type-ordered list yields the
two-key ordering. -/
theorem isortKey_region_lex (l : List AggregateReportRow)
    (h : l.Pairwise (fun a b => a.InstanceType ≤ b.InstanceType)) :
    (isortKey (fun rec => rec.Region) l).Pairwise lexOK := by
  induction l with
  | nil => simp [isortKey]
  | cons x xs ih =>
    rw [List.pairwise_cons] at h
    refine insertKey_region_lex x _ (ih h.2) ?_
    intro y hy
    exact h.1 y ((isortKey_perm _ xs).mem_iff.mp hy)

theorem stableTwoPass_perm (l : List AggregateReportRow) : (stableTwoPass l).Perm l :=
  (isortKey_perm _ _).trans (isortKey_perm _ _)

theorem stableTwoPass_lex (l : List AggregateReportRow) :
    (stableTwoPass l).Pairwise lexOK :=
  isortKey_region_lex _ (isortKey_pairwise_le _ l)

/-! ## Fixtures and shared helper lemmas -/

/-- Qualifying sample row: one hour of t2.micro usage in eu-west-1. -/
def rowMicro : CsvRow :=
  { lineItemType := "Usage"
    productCode := "AmazonEC2"
    productFamily := "Compute Instance"
    operation := "RunInstances"
    payerAccountID := "111122223333"
    usageAccountID := "444455556666"
    region := "eu-west-1"
    instanceType := "t2.micro"
    timeInterval := "2022-08-01T00:00:00Z/2022-08-01T01:00:00Z" }

/-- Qualifying row with region `a` and instance type `b_c`: its joined
aggregation key `a_b_c` coincides with the one of `rowCollideB` although the
two pairs differ. -/
def rowCollideA : CsvRow :=
  { rowMicro with region := "a", instanceType := "b_c" }

/-- Qualifying row with region `a_b` and instance type `c`, the second half
of the colliding pair. -/
def rowCollideB : CsvRow :=
  { rowMicro with region := "a_b", instanceType := "c" }

/-- Row failing the product-code filter check. -/
def rowStorage : CsvRow :=
  { rowMicro with productCode := "AmazonS3", productFamily := "Storage" }

/-- Total duration of the qualifying rows carrying a given region and
instance type pair, the reference quantity of the aggregation claims. -/
def pairDuration (rows : List CsvRow) (r t : String) : ℤ :=
  ((rows.filter (fun row =>
    qualifies row && (row.region == r) && (row.instanceType == t))).map
      (fun row => (readReportRow row).Duration)).sum

theorem qualifies_iff (row : CsvRow) :
    qualifies row = true ↔
      (row.lineItemType = "Usage" ∧ row.productCode = "AmazonEC2" ∧
       row.productFamily = "Compute Instance" ∧
       "RunInstances".data.isPrefixOf row.operation.data = true) := by
  simp [qualifies, Bool.and_eq_true, beq_iff_eq, and_assoc]

theorem durAt_insertAgg_self (agg : List (String × AggregateReportRow)) (k : String)
    (r : ReportRow) : durAt (insertAgg agg k r) k = durAt agg k + r.Duration := by
  rw [durAt, assocFind_insertAgg_self]
  cases hfind : assocFind k agg <;> simp [durAt, hfind]

/-- Success case of the emissions estimate, in closed form. -/
theorem AWS_ok (awsRegions : List (String × AWSRegion))
    (ec2instances : List (String × EC2Instance)) (r t : String)
    (rs : AWSRegion) (inst : EC2Instance)
    (hr : assocFind r awsRegions = some rs) (ht : assocFind t ec2instances = some inst)
    (d : ℤ) :
    AWS awsRegions ec2instances r t d =
      Except.ok ((inst.PowerAt50Percent / 1000 * rs.PUE * rs.CarbonIntensity
        + inst.ManufacturingEmissionsHourly) * ((d : ℚ) / 3600000000000)) := by
  simp [AWS, PUE, CarbonIntensity, PowerAt50Percent, ManufacturingEmissions, hr, ht,
    bind, Except.bind, pure, Except.pure, durationHours_eq]

/-! ## Claim theorems -/

/-- C1: for every region code and instance type present in the reference
tables and every duration, the emissions estimate succeeds and returns
exactly `((power/1000) * PUE * carbonIntensity + manufacturing) * hours`;
for eu-west-1 and t2.micro (power 4.9 W, PUE 1.2, carbon intensity 316,
manufacturing 0.9 g/h) one hour yields 2.75808 grams and a zero duration
yields exactly 0. -/
theorem C1_emissions_formula (awsRegions : List (String × AWSRegion))
    (ec2instances : List (String × EC2Instance)) (r t : String)
    (rs : AWSRegion) (inst : EC2Instance)
    (hr : assocFind r awsRegions = some rs) (ht : assocFind t ec2instances = some inst)
    (d : ℤ) :
    AWS awsRegions ec2instances r t d =
      Except.ok ((inst.PowerAt50Percent / 1000 * rs.PUE * rs.CarbonIntensity
        + inst.ManufacturingEmissionsHourly) * ((d : ℚ) / 3600000000000)) ∧
    AWS awsRegions ec2instances r t 0 = Except.ok 0 ∧
    AWS testAWSRegions testEC2Instances "eu-west-1" "t2.micro" 3600000000000 =
      Except.ok 2.75808 := by
  refine ⟨AWS_ok awsRegions ec2instances r t rs inst hr ht d, ?_, ?_⟩
  · rw [AWS_ok awsRegions ec2instances r t rs inst hr ht 0]
    norm_num
  · rw [AWS_ok testAWSRegions testEC2Instances "eu-west-1" "t2.micro" ⟨316, 1.2⟩ ⟨4.9, 0.9⟩
      rfl rfl 3600000000000]
    norm_num

/-- Witness for C1 at the tabulated eu-west-1 and t2.micro entries. -/
theorem C1_emissions_formula_witness :
    assocFind "eu-west-1" testAWSRegions = some ⟨316, 1.2⟩ ∧
    assocFind "t2.micro" testEC2Instances = some ⟨4.9, 0.9⟩ ∧
    AWS testAWSRegions testEC2Instances "eu-west-1" "t2.micro" 3600000000000 =
      Except.ok 2.75808 :=
  ⟨rfl, rfl,
    (C1_emissions_formula testAWSRegions testEC2Instances "eu-west-1" "t2.micro"
      ⟨316, 1.2⟩ ⟨4.9, 0.9⟩ rfl rfl 0).2.2⟩

/-- C5: a string absent from the instance table makes both instance lookups
fail with the unknown-instance-type error, a string absent from the region
table makes both region lookups fail with the unknown-region error, and in
every such case the top-level estimate returns an error and never a numeric
result. -/
theorem C5_unknown_lookups (awsRegions : List (String × AWSRegion))
    (ec2instances : List (String × EC2Instance)) (r t : String) (d : ℤ) :
    (assocFind t ec2instances = none →
      PowerAt50Percent ec2instances t = Except.error "unknown instance type" ∧
      ManufacturingEmissions ec2instances t = Except.error "unknown instance type") ∧
    (assocFind r awsRegions = none →
      CarbonIntensity awsRegions r = Except.error "unknown AWS region code" ∧
      PUE awsRegions r = Except.error "unknown AWS region code" ∧
      AWS awsRegions ec2instances r t d = Except.error "unknown AWS region code") ∧
    (assocFind t ec2instances = none → ∀ rs, assocFind r awsRegions = some rs →
      AWS awsRegions ec2instances r t d = Except.error "unknown instance type") ∧
    ((assocFind t ec2instances = none ∨ assocFind r awsRegions = none) →
      ∀ v : ℚ, AWS awsRegions ec2instances r t d ≠ Except.ok v) := by
  refine ⟨?_, ?_, ?_, ?_⟩
  · intro h
    exact ⟨by simp [PowerAt50Percent, h], by simp [ManufacturingEmissions, h]⟩
  · intro h
    exact ⟨by simp [CarbonIntensity, h], by simp [PUE, h],
      by simp [AWS, PUE, h, bind, Except.bind]⟩
  · intro ht rs hr
    simp [AWS, PUE, CarbonIntensity, PowerAt50Percent, hr, ht, bind, Except.bind]
  · intro h v
    rcases h with ht | hr
    · cases hfind : assocFind r awsRegions with
      | none => simp [AWS, PUE, hfind, bind, Except.bind]
      | some rs =>
        simp [AWS, PUE, CarbonIntensity, PowerAt50Percent, hfind, ht, bind, Except.bind]
    · simp [AWS, PUE, hr, bind, Except.bind]

/-- Witness for C5 at the string `unknown` against the tabulated data. -/
theorem C5_unknown_lookups_witness :
    assocFind "unknown" testEC2Instances = (none : Option EC2Instance) ∧
    PowerAt50Percent testEC2Instances "unknown" = Except.error "unknown instance type" ∧
    assocFind "unknown" testAWSRegions = (none : Option AWSRegion) ∧
    AWS testAWSRegions testEC2Instances "unknown" "t2.micro" 3600000000000 =
      Except.error "unknown AWS region code" :=
  ⟨rfl,
    ((C5_unknown_lookups testAWSRegions testEC2Instances "unknown" "unknown" 0).1 rfl).1,
    rfl,
    ((C5_unknown_lookups testAWSRegions testEC2Instances "unknown" "t2.micro"
      3600000000000).2.1 rfl).2.2⟩

/-- C9: with both lookups succeeding and a nonnegative duration, the
estimate is deterministic, and doubling the duration doubles the result. -/
theorem C9_deterministic_linear (awsRegions : List (String × AWSRegion))
    (ec2instances : List (String × EC2Instance)) (r t : String)
    (rs : AWSRegion) (inst : EC2Instance)
    (hr : assocFind r awsRegions = some rs) (ht : assocFind t ec2instances = some inst)
    (d : ℤ) (hd : 0 ≤ d) :
    AWS awsRegions ec2instances r t d = AWS awsRegions ec2instances r t d ∧
    (∃ v, AWS awsRegions ec2instances r t d = Except.ok v ∧
      AWS awsRegions ec2instances r t (2 * d) = Except.ok (2 * v)) := by
  refine ⟨rfl, ?_⟩
  refine ⟨(inst.PowerAt50Percent / 1000 * rs.PUE * rs.CarbonIntensity
    + inst.ManufacturingEmissionsHourly) * ((d : ℚ) / 3600000000000),
    AWS_ok awsRegions ec2instances r t rs inst hr ht d, ?_⟩
  rw [AWS_ok awsRegions ec2instances r t rs inst hr ht (2 * d)]
  push_cast
  ring_nf

/-- Witness for C9 at the tabulated eu-west-1 and t2.micro entries with a
duration of one hour. -/
theorem C9_deterministic_linear_witness :
    (0 : ℤ) ≤ 3600000000000 ∧
    (∃ v, AWS testAWSRegions testEC2Instances "eu-west-1" "t2.micro" 3600000000000 =
        Except.ok v ∧
      AWS testAWSRegions testEC2Instances "eu-west-1" "t2.micro" (2 * 3600000000000) =
        Except.ok (2 * v)) :=
  ⟨by norm_num,
    (C9_deterministic_linear testAWSRegions testEC2Instances "eu-west-1" "t2.micro"
      ⟨316, 1.2⟩ ⟨4.9, 0.9⟩ rfl rfl 3600000000000 (by norm_num)).2⟩

/-- C2: a row contributes to a bucket duration and to the qualifying row
count exactly when line-item type equals `Usage`, product code equals
`AmazonEC2`, product family equals `Compute Instance` and the operation
starts with `RunInstances`; a row failing any predicate leaves the loop
state untouched. -/
theorem C2_row_filter (st : AnalyseState) (row : CsvRow) :
    ((row.lineItemType = "Usage" ∧ row.productCode = "AmazonEC2" ∧
      row.productFamily = "Compute Instance" ∧
      "RunInstances".data.isPrefixOf row.operation.data = true) →
        (processRow st row).lineCount = st.lineCount + 1 ∧
        durAt (processRow st row).aggregate (csvKey row)
          = durAt st.aggregate (csvKey row) + (readReportRow row).Duration) ∧
    (¬ (row.lineItemType = "Usage" ∧ row.productCode = "AmazonEC2" ∧
      row.productFamily = "Compute Instance" ∧
      "RunInstances".data.isPrefixOf row.operation.data = true) →
        processRow st row = st) := by
  constructor
  · intro h
    have hq : qualifies row = true := (qualifies_iff row).mpr h
    rw [processRow_of_qualifies st row hq]
    exact ⟨rfl, durAt_insertAgg_self st.aggregate (csvKey row) (readReportRow row)⟩
  · intro h
    have hq : qualifies row = false := by
      cases hb : qualifies row with
      | false => rfl
      | true => exact absurd ((qualifies_iff row).mp hb) h
    exact processRow_of_not_qualifies st row hq

/-- Witness for C2: the sample EC2 usage row qualifies and is counted, the
storage row fails the filter and leaves the state untouched. -/
theorem C2_row_filter_witness :
    ((processRow initState rowMicro).lineCount = initState.lineCount + 1 ∧
      durAt (processRow initState rowMicro).aggregate (csvKey rowMicro)
        = durAt initState.aggregate (csvKey rowMicro) + (readReportRow rowMicro).Duration) ∧
    processRow initState rowStorage = initState :=
  ⟨(C2_row_filter initState rowMicro).1 (by decide),
    (C2_row_filter initState rowStorage).2 (by decide)⟩

/-- C7: the formatter prints grams with no decimals up to 1000 grams,
kilograms with one decimal above 1000 and up to one million grams, and
metric tons with one decimal above one million grams, both thresholds being
strict on the gram value; 57 grams print as `57 gCO2e`, 2758 grams as
`2.8 kgCO2e` and 2000000 grams as `2.0 MTCO2e`. -/
theorem C7_format_units (g : ℚ) :
    (¬ 1000 < g → formatGrams g = fmtDec0 g ++ " gCO2e") ∧
    (1000 < g → ¬ 1000000 < g → formatGrams g = fmtDec1 (g / 1000) ++ " kgCO2e") ∧
    (1000000 < g → formatGrams g = fmtDec1 (g / 1000 / 1000) ++ " MTCO2e") ∧
    formatGrams 57 = "57 gCO2e" ∧
    formatGrams 2758 = "2.8 kgCO2e" ∧
    formatGrams 2000000 = "2.0 MTCO2e" := by
  refine ⟨?_, ?_, ?_, ?_, ?_, ?_⟩
  · intro h
    have h1 : ¬ g > 1000 * 1000 := by
      intro hc
      exact h (by linarith)
    simp [formatGrams, h1, h]
  · intro h h6
    have h1 : ¬ g > 1000 * 1000 := by
      intro hc
      exact h6 (by linarith)
    simp [formatGrams, h1, h]
  · intro h
    have h1 : g > 1000 * 1000 := by linarith
    simp [formatGrams, h1]
  · simp only [formatGrams, fmtDec0, roundNearEven]
    norm_num
    decide
  · simp only [formatGrams, fmtDec1, fmtDec1Core, roundNearEven]
    norm_num
    decide
  · simp only [formatGrams, fmtDec1, fmtDec1Core, roundNearEven]
    norm_num
    decide

/-- Witness for C7 in the kilogram branch at 2758 grams. -/
theorem C7_format_units_witness :
    (1000 : ℚ) < 2758 ∧ ¬ (1000000 : ℚ) < 2758 ∧
    formatGrams 2758 = fmtDec1 ((2758 : ℚ) / 1000) ++ " kgCO2e" :=
  ⟨by norm_num, by norm_num,
    (C7_format_units 2758).2.1 (by norm_num) (by norm_num)⟩

/-- C3 counterexample: two qualifying rows with the distinct pairs
`(a, b_c)` and `(a_b, c)` are accumulated into one shared bucket, because
both pairs join to the key `a_b_c`; the resulting bucket carries the labels
of the first row and a total duration of two hours, while the rows matching
its own pair only amount to one hour. -/
theorem C3_pair_bucket_collision :
    qualifies rowCollideA = true ∧ qualifies rowCollideB = true ∧
    rowCollideA.region ≠ rowCollideB.region ∧
    csvKey rowCollideA = csvKey rowCollideB ∧
    (runRows initState [rowCollideA, rowCollideB]).aggregate =
      [("a_b_c", ⟨"a", "b_c", 7200000000000, 0⟩)] ∧
    pairDuration [rowCollideA, rowCollideB] "a" "b_c" = 3600000000000 ∧
    (7200000000000 : ℤ) ≠ 3600000000000 := by
  refine ⟨by decide, by decide, by decide, by decide, by decide, by decide, by decide⟩

/-- C3 amended: provided qualifying rows with the same joined key always
carry the same pair — which holds whenever no region code holds an
underscore — every occurring pair owns exactly one bucket, that bucket
carries the labels of the pair and the summed duration of exactly its rows,
and distinct occurring pairs own distinct buckets. -/
theorem C3_amended_buckets (rows : List CsvRow) (hc : KeyConsistent rows) (r t : String)
    (hocc : ∃ row ∈ rows, qualifies row = true ∧ row.region = r ∧ row.instanceType = t) :
    (∃ v, assocFind (r ++ "_" ++ t) (runRows initState rows).aggregate = some v ∧
      v.Region = r ∧ v.InstanceType = t ∧ v.Duration = pairDuration rows r t) ∧
    (∀ r' t', (∃ row ∈ rows, qualifies row = true ∧ row.region = r' ∧ row.instanceType = t') →
      (r, t) ≠ (r', t') → r ++ "_" ++ t ≠ r' ++ "_" ++ t') := by
  obtain ⟨row0, hmem0, hq0, hr0, ht0⟩ := hocc
  have hkey0 : csvKey row0 = r ++ "_" ++ t := by simp [csvKey, hr0, ht0]
  constructor
  · rw [assocFind_runRows]
    have hinit : assocFind (r ++ "_" ++ t) initState.aggregate = none := rfl
    rw [hinit]
    have hmemf : row0 ∈ keyRows rows (r ++ "_" ++ t) :=
      List.mem_filter.mpr ⟨hmem0, by simp [hq0, hkey0]⟩
    have hsum : keySum rows (r ++ "_" ++ t) = pairDuration rows r t := by
      unfold keySum keyRows pairDuration
      congr 1
      refine congrArg _ (List.filter_congr ?_)
      intro x hx
      cases hqx : qualifies x with
      | false => simp [hqx]
      | true =>
        by_cases hkx : csvKey x = r ++ "_" ++ t
        · have hpair := hc x hx row0 hmem0 hqx hq0 (hkx.trans hkey0.symm)
          simp [hqx, hkx, hpair.1, hpair.2, hr0, ht0]
        · have hreg : ¬ (x.region = r ∧ x.instanceType = t) := by
            intro hcon
            exact hkx (by simp [csvKey, hcon.1, hcon.2])
          have l1 : (csvKey x == r ++ "_" ++ t) = false := beq_eq_false_iff_ne.mpr hkx
          by_cases hxr : x.region = r
          · have hxt : ¬ x.instanceType = t := fun hcon => hreg ⟨hxr, hcon⟩
            have l2 : (x.instanceType == t) = false := beq_eq_false_iff_ne.mpr hxt
            simp [hqx, l1, l2]
          · have l2 : (x.region == r) = false := beq_eq_false_iff_ne.mpr hxr
            simp [hqx, l1, l2]
    cases hkr : keyRows rows (r ++ "_" ++ t) with
    | nil =>
      rw [hkr] at hmemf
      exact absurd hmemf (List.not_mem_nil row0)
    | cons a tail =>
      have hamem : a ∈ keyRows rows (r ++ "_" ++ t) := by
        rw [hkr]
        exact List.mem_cons_self a tail
      have ha := List.mem_filter.mp hamem
      have haq : qualifies a = true := by
        have := ha.2
        simp only [Bool.and_eq_true] at this
        exact this.1
      have hak : csvKey a = r ++ "_" ++ t := by
        have := ha.2
        simp only [Bool.and_eq_true, beq_iff_eq] at this
        exact this.2
      have hpair := hc a ha.1 row0 hmem0 haq hq0 (hak.trans hkey0.symm)
      exact ⟨⟨a.region, a.instanceType, keySum rows (r ++ "_" ++ t), 0⟩, rfl,
        hpair.1.trans hr0, hpair.2.trans ht0, hsum⟩
  · rintro r' t' ⟨row', hmem', hq', hr', ht'⟩ hne heq
    have hkey' : csvKey row' = r' ++ "_" ++ t' := by simp [csvKey, hr', ht']
    have hpair := hc row0 hmem0 row' hmem' hq0 hq' (by rw [hkey0, hkey', heq])
    exact hne (by rw [Prod.mk.injEq, ← hr0, ← ht0, ← hr', ← ht']; exact ⟨hpair.1, hpair.2⟩)

/-- Witness for the amended C3 at a one-row report. -/
theorem C3_amended_buckets_witness :
    KeyConsistent [rowMicro] ∧
    (∃ v, assocFind ("eu-west-1" ++ "_" ++ "t2.micro")
        (runRows initState [rowMicro]).aggregate = some v ∧
      v.Region = "eu-west-1" ∧ v.InstanceType = "t2.micro" ∧
      v.Duration = pairDuration [rowMicro] "eu-west-1" "t2.micro") := by
  have hc : KeyConsistent [rowMicro] := by
    intro r1 h1 r2 h2 _ _ _
    simp only [List.mem_singleton] at h1 h2
    subst h1
    subst h2
    exact ⟨rfl, rfl⟩
  exact ⟨hc, (C3_amended_buckets [rowMicro] hc "eu-west-1" "t2.micro"
    ⟨rowMicro, by simp, by decide, rfl, rfl⟩).1⟩

/-- C4 counterexample: swapping the two colliding rows changes the stored
bucket labels, so the two runs end with different sets of aggregate
records. -/
theorem C4_not_order_independent :
    [rowCollideA, rowCollideB].Perm [rowCollideB, rowCollideA] ∧
    (runRows initState [rowCollideA, rowCollideB]).aggregate =
      [("a_b_c", ⟨"a", "b_c", 7200000000000, 0⟩)] ∧
    (runRows initState [rowCollideB, rowCollideA]).aggregate =
      [("a_b_c", ⟨"a_b", "c", 7200000000000, 0⟩)] ∧
    (⟨"a", "b_c", 7200000000000, 0⟩ : AggregateReportRow) ≠ ⟨"a_b", "c", 7200000000000, 0⟩ :=
  ⟨List.Perm.swap rowCollideB rowCollideA [], by decide, by decide, by decide⟩

/-- C4 amended: under consistent keys — in particular whenever no region
code holds an underscore — permuting the input rows leaves every bucket
lookup unchanged and yields the same buckets, the same final records and
the same grand total, up to order. -/
theorem C4_perm_invariant (rows1 rows2 : List CsvRow) (h : rows1.Perm rows2)
    (hc : KeyConsistent rows1) (awsRegions : List (String × AWSRegion))
    (ec2instances : List (String × EC2Instance)) :
    (∀ k, assocFind k (runRows initState rows1).aggregate
      = assocFind k (runRows initState rows2).aggregate) ∧
    ((runRows initState rows1).aggregate).Perm ((runRows initState rows2).aggregate) ∧
    (finalRecords awsRegions ec2instances (runRows initState rows1).aggregate).Perm
      (finalRecords awsRegions ec2instances (runRows initState rows2).aggregate) ∧
    totalEmissions awsRegions ec2instances (runRows initState rows1).aggregate
      = totalEmissions awsRegions ec2instances (runRows initState rows2).aggregate := by
  have hlookup : ∀ k, assocFind k (runRows initState rows1).aggregate
      = assocFind k (runRows initState rows2).aggregate :=
    fun k => assocFind_runRows_perm h hc k
  have hnodup1 : NodupKeys (runRows initState rows1).aggregate :=
    nodupKeys_runRows rows1 initState (by simp [NodupKeys, aggKeys, initState])
  have hnodup2 : NodupKeys (runRows initState rows2).aggregate :=
    nodupKeys_runRows rows2 initState (by simp [NodupKeys, aggKeys, initState])
  have hperm := agg_perm_of_assocFind_eq _ _ hnodup1 hnodup2 hlookup
  exact ⟨hlookup, hperm, hperm.filterMap _, (hperm.filterMap _).sum_eq⟩

/-- Witness for the amended C4: swapping a qualifying and a non-qualifying
row keeps the grand total. -/
theorem C4_perm_invariant_witness :
    [rowMicro, rowStorage].Perm [rowStorage, rowMicro] ∧
    KeyConsistent [rowMicro, rowStorage] ∧
    totalEmissions testAWSRegions testEC2Instances
        (runRows initState [rowMicro, rowStorage]).aggregate
      = totalEmissions testAWSRegions testEC2Instances
        (runRows initState [rowStorage, rowMicro]).aggregate := by
  have hp : [rowMicro, rowStorage].Perm [rowStorage, rowMicro] :=
    List.Perm.swap rowStorage rowMicro []
  have hc : KeyConsistent [rowMicro, rowStorage] := by
    intro r1 h1 r2 h2 q1 q2 _
    simp only [List.mem_cons, List.not_mem_nil, or_false] at h1 h2
    rcases h1 with h1 | h1 <;> rcases h2 with h2 | h2 <;> subst h1 <;> subst h2
    · exact ⟨rfl, rfl⟩
    · exact absurd q2 (by decide)
    · exact absurd q1 (by decide)
    · exact ⟨rfl, rfl⟩
  exact ⟨hp, hc,
    (C4_perm_invariant [rowMicro, rowStorage] [rowStorage, rowMicro] hp hc
      testAWSRegions testEC2Instances).2.2.2⟩

/-- Output record fixture used by the sorting claim. -/
def recA : AggregateReportRow := ⟨"eu-west-1", "a1.medium", 3600000000000, 0⟩

/-- Output record fixture sharing a region with `recA`. -/
def recB : AggregateReportRow := ⟨"eu-west-1", "t2.micro", 3600000000000, 0⟩

/-- C6 counterexample: the contract of `sort.Slice` — a permutation ordered
by the less function, with no stability promise — admits a run of the two
passes whose final output shares one region and leaves the instance types
in descending order, so the two passes do not by themselves produce the
two-key ordering. -/
theorem C6_two_pass_not_lex :
    twoPassResult [recB, recA] [recB, recA] ∧ ¬ ([recB, recA].Pairwise lexOK) := by
  have hlt : ("a1.medium" : String) < "t2.micro" := by
    rw [String.lt_iff_toList_lt]
    decide
  constructor
  · refine ⟨[recA, recB], ⟨List.Perm.swap recA recB [], ?_⟩,
      ⟨List.Perm.swap recB recA [], ?_⟩⟩
    · refine List.pairwise_cons.mpr ⟨?_, by simp⟩
      intro z hz
      simp only [List.mem_singleton] at hz
      subst hz
      exact le_of_lt hlt
    · refine List.pairwise_cons.mpr ⟨?_, by simp⟩
      intro z hz
      simp only [List.mem_singleton] at hz
      subst hz
      exact le_refl _
  · intro hpair
    have h1 := (List.pairwise_cons.mp hpair).1 recA (List.mem_cons_self recA [])
    rcases h1 with h1 | h1
    · exact absurd h1 (lt_irrefl _)
    · exact absurd h1.2 (not_le.mpr hlt)

/-- C6 amended: every outcome of the two passes is a permutation of the
records ordered by region; the full two-key ordering — regions ascending
and instance types ascending inside a region — is produced when the passes
are carried out stably, as by the stable insertion sort modelled here. -/
theorem C6_region_sorted_and_stable_lex :
    (∀ inp out, twoPassResult inp out →
      inp.Perm out ∧ out.Pairwise (fun a b => a.Region ≤ b.Region)) ∧
    (∀ l, (stableTwoPass l).Perm l ∧ (stableTwoPass l).Pairwise lexOK) := by
  constructor
  · rintro inp out ⟨mid, ⟨hp1, hs1⟩, hp2, hs2⟩
    exact ⟨hp1.trans hp2, hs2⟩
  · intro l
    exact ⟨stableTwoPass_perm l, stableTwoPass_lex l⟩

/-- Witness for the amended C6 on a one-record table. -/
theorem C6_region_sorted_and_stable_lex_witness :
    twoPassResult [recA] [recA] ∧
    ([recA].Perm [recA] ∧ [recA].Pairwise (fun a b => a.Region ≤ b.Region)) := by
  have h : twoPassResult [recA] [recA] :=
    ⟨[recA], ⟨List.Perm.refl _, by simp⟩, List.Perm.refl _, by simp⟩
  exact ⟨h, C6_region_sorted_and_stable_lex.1 [recA] [recA] h⟩

/-- C8 counterexample: a structural CSV error after one valid row stops the
read but does not abort the run — the loop hands the partial state on, the
report shows the one row read before the error, and the row after the error
is dropped. -/
theorem C8_error_still_reports :
    readLoop initState
        [Except.ok rowMicro, Except.error "wrong number of fields", Except.ok rowMicro]
      = readLoop initState [Except.ok rowMicro] ∧
    (readLoop initState
        [Except.ok rowMicro, Except.error "wrong number of fields", Except.ok rowMicro]).lineCount
      = 1 ∧
    (readLoop initState
        [Except.ok rowMicro, Except.error "wrong number of fields", Except.ok rowMicro]).aggregate
      ≠ [] :=
  ⟨rfl, by decide, by decide⟩

/-- C8 amended: a structural CSV error ends the read at that point and the
report is produced from the rows before the error; a timestamp that fails
to parse inside a structurally valid row never aborts and yields the zero
time. -/
theorem C8_error_stops_read (st : AnalyseState) (pre : List CsvRow) (e : String)
    (post : List (Except String CsvRow)) :
    readLoop st (pre.map Except.ok ++ Except.error e :: post)
      = readLoop st (pre.map Except.ok) ∧
    (∀ s, parseDate s = none → mustParseDate s = 0) := by
  constructor
  · induction pre generalizing st with
    | nil => rfl
    | cons row rest ih => exact ih (processRow st row)
  · intro s h
    simp [mustParseDate, h]

/-- Witness for the amended C8 at a one-row prefix and the sentinel
timestamp string. -/
theorem C8_error_stops_read_witness :
    parseDate "0000-00-00T00:00:00Z" = none ∧
    mustParseDate "0000-00-00T00:00:00Z" = 0 ∧
    readLoop initState
        ([rowMicro].map Except.ok ++ Except.error "bad row" :: [Except.ok rowMicro])
      = readLoop initState ([rowMicro].map Except.ok) :=
  ⟨by decide,
    (C8_error_stops_read initState [] "bad row" []).2 "0000-00-00T00:00:00Z" (by decide),
    (C8_error_stops_read initState [rowMicro] "bad row" [Except.ok rowMicro]).1⟩

/-- C10: when no row of the stream qualifies the run still ends with the
untouched initial state — row count 0, no buckets, no final records, total
0 — and the time-range sentinels remain: the earliest sentinel is the
parsed year-2100 date while the latest sentinel string fails to parse and
is the zero time, so the earliest bound is after the latest and the
reported elapsed span is negative (saturated at the smallest duration). -/
theorem C10_no_qualifying_rows (stream : List (Except String CsvRow))
    (h : ∀ row : CsvRow, Except.ok row ∈ stream → qualifies row = false) :
    readLoop initState stream = initState ∧
    initState.lineCount = 0 ∧
    initState.aggregate = [] ∧
    (∀ awsRegions ec2instances,
      finalRecords awsRegions ec2instances initState.aggregate = [] ∧
      totalEmissions awsRegions ec2instances initState.aggregate = 0) ∧
    parseDate "2100-12-31T23:59:59Z" = some 66269577599 ∧
    initState.earliest = 66269577599 ∧
    parseDate "0000-00-00T00:00:00Z" = none ∧
    initState.latest = 0 ∧
    initState.latest < initState.earliest ∧
    timeSub initState.latest initState.earliest = minDuration ∧
    timeSub initState.latest initState.earliest < 0 := by
  have hloop : ∀ (s : List (Except String CsvRow)) (st : AnalyseState),
      (∀ row : CsvRow, Except.ok row ∈ s → qualifies row = false) →
      readLoop st s = st := by
    intro s
    induction s with
    | nil =>
      intro st _
      rfl
    | cons x rest ih =>
      intro st hx
      cases x with
      | error e => rfl
      | ok row =>
        have hq : qualifies row = false := hx row (List.mem_cons_self _ _)
        have hkeep : processRow st row = st := processRow_of_not_qualifies st row hq
        calc readLoop st (Except.ok row :: rest)
            = readLoop (processRow st row) rest := rfl
          _ = readLoop st rest := by rw [hkeep]
          _ = st := ih st (fun r hr => hx r (List.mem_cons_of_mem _ hr))
  refine ⟨hloop stream initState h, rfl, rfl, fun _ _ => ⟨rfl, rfl⟩,
    by decide, by decide, by decide, by decide, by decide, by decide, by decide⟩

/-- Witness for C10 on a short stream of one non-qualifying row followed by
a CSV error. -/
theorem C10_no_qualifying_rows_witness :
    readLoop initState [Except.ok rowStorage, Except.error "boom"] = initState ∧
    initState.lineCount = 0 ∧ initState.latest < initState.earliest := by
  have h : ∀ row : CsvRow,
      Except.ok row ∈ [Except.ok rowStorage, Except.error ("boom" : String)] →
      qualifies row = false := by
    intro row hmem
    simp only [List.mem_cons, List.not_mem_nil, or_false] at hmem
    rcases hmem with hmem | hmem
    · cases Except.ok.inj hmem
      decide
    · exact absurd hmem (by simp)
  have hmain := C10_no_qualifying_rows [Except.ok rowStorage, Except.error "boom"] h
  exact ⟨hmain.1, hmain.2.1, hmain.2.2.2.2.2.2.2.2.1⟩

end CloudCarbon

